import Mathlib

/-
  Verification of the job-lifecycle, checklist, gamification and
  photo-approval logic of the bms-pro-fieldflow field-service client.

  The definitions below are shallow embeddings of the TypeScript source:
  - src/components/Checklist.tsx          (checklist toggling and progress)
  - src/pages/TaskDetail.tsx              (job status updates, signature gate,
                                           work-progress completion, completion
                                           rewards flow)
  - src/hooks/useGamification.tsx         (xp, levels, streaks, achievements)
  - src/pages/supervisor/PhotoApprovals.tsx (photo approve and reject)
  - supabase migration 20251115083343     (photo_approvals table and trigger)

  React function components bind their state variables as constants of the
  current render.  Calling a state setter only schedules a value for the next
  render; it never changes the constant that the currently running handlers
  read.  Handlers that call other handlers of the same render therefore read
  the snapshot taken at render time.  The embeddings below make that explicit:
  each handler reads from the render snapshot it closed over, and when several
  persistence writes are issued in one handler run, each write is computed
  from that same snapshot and the last write is the one that persists.
-/

namespace FieldFlow

/-! ### Checklist engine (src/components/Checklist.tsx, src/pages/TaskDetail.tsx) -/

/-- One checklist entry as stored in the jobs row JSON arrays:
a label, a completed flag, and an optional quantity. -/
structure ChecklistItem where
  item : String
  completed : Bool
  quantity : Option Nat
deriving DecidableEq

/-- Number of completed items: items.filter(item => item.completed).length. -/
def completedCount (items : List ChecklistItem) : Nat :=
  (items.filter (fun it => it.completed)).length

/-- Derived completion percentage from handleWorkProgressUpdate in
TaskDetail.tsx: totalItems > 0 ? Math.round((completedItems / totalItems) * 100) : 0.
Math.round on nonnegative values is rounding half up, which is the round
function of Mathlib on the exact rational value. -/
def workCompletion (items : List ChecklistItem) : ℤ :=
  let totalItems := items.length
  let completedItems := completedCount items
  if 0 < totalItems then round (((completedItems : ℚ) / (totalItems : ℚ)) * 100) else 0

/-- Toggling entry index of a checklist, from handleToggle in Checklist.tsx:
checklist.map((item, i) => i === index ? spread item with completed negated : item). -/
def handleToggle (checklist : List ChecklistItem) (index : Nat) : List ChecklistItem :=
  checklist.mapIdx (fun i it =>
    if i = index then { it with completed := !it.completed } else it)

/-! ### Gamification ledger (src/hooks/useGamification.tsx) -/

/-- The per-technician gamification state persisted in local storage under
the key gamification_ followed by the user id. -/
structure GamificationData where
  xp : Nat
  level : Nat
  streak : Nat
  lastClockIn : Option String
  achievements : List String
deriving DecidableEq

/-- Result object of addXP: leveledUp flag, the new level when leveled up,
and the new xp value. -/
structure AddXPResult where
  leveledUp : Bool
  newLevel : Option Nat
  newXP : Nat
deriving DecidableEq

/-- addXP from useGamification.tsx.  Reads the render snapshot d, saves the
new state, and returns the result object.  The level increments by exactly
one when the threshold level * 100 is reached; the remainder carries over. -/
def addXP (d : GamificationData) (amount : Nat) : GamificationData × AddXPResult :=
  let xpToNextLevel := d.level * 100
  let newXP := d.xp + amount
  if newXP ≥ xpToNextLevel then
    ({ d with xp := newXP - xpToNextLevel, level := d.level + 1 },
     { leveledUp := true, newLevel := some (d.level + 1), newXP := newXP - xpToNextLevel })
  else
    ({ d with xp := newXP }, { leveledUp := false, newLevel := none, newXP := newXP })

/-- addAchievement from useGamification.tsx.  When the id is not yet in the
unlocked list it is appended and the call reports isNew = true; otherwise
no save is issued and the call reports isNew = false. -/
def addAchievement (d : GamificationData) (achievementId : String) :
    GamificationData × Bool :=
  if achievementId ∉ d.achievements then
    ({ d with achievements := d.achievements ++ [achievementId] }, true)
  else
    (d, false)

/-- updateStreak from useGamification.tsx, with today and yesterday passed in
as the calendar-day strings the source computes from Date.  In the branch
where the streak increment crosses the 5-day threshold the source first
saves the incremented streak and then calls addAchievement, which reads the
same render snapshot d and issues a second save computed from d; that second
save is the one that persists, so the streak increment and the lastClockIn
update are lost in exactly that branch. -/
def updateStreak (d : GamificationData) (today yesterday : String) : GamificationData :=
  if d.lastClockIn = some yesterday then
    let newStreak := d.streak + 1
    if newStreak ≥ 5 ∧ "perfect_week" ∉ d.achievements then
      (addAchievement d "perfect_week").1
    else
      { d with streak := newStreak, lastClockIn := some today }
  else if d.lastClockIn ≠ some today then
    { d with streak := 1, lastClockIn := some today }
  else
    d

/-! ### Completion rewards flow (src/pages/TaskDetail.tsx, success branch of
updateStatus for newStatus = completed).

The source runs, in order: addXP (50 when completedEarly, 30 otherwise);
addAchievement task_master; increment the completedJobs counter in local
storage; when it reaches 20, addAchievement five_star; when completedEarly,
increment the earlyCompletions counter, and when it reaches 5, addAchievement
speed_demon.  Both counters live under the fixed local-storage keys
completedJobs and earlyCompletions, which are shared by every user of the
browser, unlike the gamification state, which is keyed by user id.

All gamification calls in one run read the same render snapshot d, and each
of them that saves writes a full state computed from d; the write issued
last is the one that persists. -/

/-- Gamification and counter effects of a successful completion.  Returns the
persisted gamification state (the last write), the new completedJobs counter,
the new earlyCompletions counter, and the xp amount shown to the user. -/
def completionRewards (d : GamificationData) (completedJobs0 earlyCompletions0 : Nat)
    (completedEarly : Bool) : GamificationData × Nat × Nat × Nat :=
  let xpAmount := if completedEarly then 50 else 30
  let w1 := (addXP d xpAmount).1
  let w2 := if "task_master" ∉ d.achievements then (addAchievement d "task_master").1 else w1
  let completedJobs1 := completedJobs0 + 1
  let w3 := if completedJobs1 ≥ 20 ∧ "five_star" ∉ d.achievements then
      (addAchievement d "five_star").1 else w2
  let earlyCompletions1 := if completedEarly then earlyCompletions0 + 1 else earlyCompletions0
  let w4 := if completedEarly ∧ earlyCompletions1 ≥ 5 ∧ "speed_demon" ∉ d.achievements then
      (addAchievement d "speed_demon").1 else w3
  (w4, completedJobs1, earlyCompletions1, xpAmount)

/-! ### Job status updates and the signature gate (src/pages/TaskDetail.tsx) -/

/-- The jobs row fields the TaskDetail page reads for its buttons. -/
structure Job where
  id : String
  status : String
  scheduled_end : Option String
deriving DecidableEq

/-- The TaskDetail component state relevant to status updates: the loaded
job, the notes text, the signature url, and whether the signature pad is
shown. -/
structure TaskDetailState where
  job : Option Job
  notes : String
  signatureUrl : Option String
  showSignaturePad : Bool
deriving DecidableEq

/-- Completion metadata added to the jobs update payload when the requested
status is completed: completed_at, completed_by and signature_url. -/
structure CompletedMeta where
  completed_at : String
  completed_by : Option String
  signature_url : Option String
deriving DecidableEq

/-- The payload written to the jobs row by updateStatus: status and notes
always, completion metadata only when the requested status is completed. -/
structure JobUpdateData where
  status : String
  notes : String
  completedMeta : Option CompletedMeta
deriving DecidableEq

/-- Body of updateStatus from TaskDetail.tsx.  The first argument is the
render snapshot the handler reads from; the second is the pending state the
setter calls of the surrounding handler have already scheduled (for a direct
button click the two coincide).  Returns the state after the setter calls of
this handler and the payload written to the jobs row, or none when nothing
is written.  When the requested status is completed and the snapshot has no
signature url, the handler only opens the signature pad and returns; there
is no other guard and no invalid-transition outcome of any kind. -/
def updateStatusCore (snap pending : TaskDetailState) (user : Option String)
    (now : String) (newStatus : String) : TaskDetailState × Option JobUpdateData :=
  match snap.job with
  | none => (pending, none)
  | some _ =>
    if newStatus = "completed" ∧ snap.signatureUrl = none then
      ({ pending with showSignaturePad := true }, none)
    else
      (pending,
        some { status := newStatus, notes := snap.notes,
               completedMeta :=
                 if newStatus = "completed" then
                   some { completed_at := now, completed_by := user,
                          signature_url := snap.signatureUrl }
                 else none })

/-- updateStatus invoked directly from a button: snapshot and pending state
coincide. -/
def updateStatus (s : TaskDetailState) (user : Option String)
    (now newStatus : String) : TaskDetailState × Option JobUpdateData :=
  updateStatusCore s s user now newStatus

/-- handleSignatureSave from TaskDetail.tsx: setSignatureUrl(url),
setShowSignaturePad(false), then, when a job is loaded, a call of
updateStatus with the string completed.  The two setter calls only schedule
values for the next render; updateStatus reads the snapshot s of the current
render, in which signatureUrl still holds its pre-save value. -/
def handleSignatureSave (s : TaskDetailState) (user : Option String)
    (now url : String) : TaskDetailState × Option JobUpdateData :=
  let pending := { s with signatureUrl := some url, showSignaturePad := false }
  match s.job with
  | none => (pending, none)
  | some _ => updateStatusCore s pending user now "completed"

/-- The status-change requests the TaskDetail page can issue, read off the
three buttons: Start Job renders only while the status is pending, Complete
Job only while it is in_progress, and Cancel Job whenever the status is not
completed, which includes cancelled. -/
def availableActions (status : String) : List String :=
  (if status = "pending" then ["in_progress"] else []) ++
  (if status = "in_progress" then ["completed"] else []) ++
  (if status ≠ "completed" then ["cancelled"] else [])

/-- Modelled from the spec: the legal transitions of the claimed job state
machine pending to in_progress to completed or cancelled, with completed and
cancelled terminal.  Stated here only to compare the claimed state machine
with what the code does; no such check exists anywhere in the source. -/
def specLegalTransition (fromStatus toStatus : String) : Bool :=
  (fromStatus == "pending" && (toStatus == "in_progress" || toStatus == "cancelled")) ||
  (fromStatus == "in_progress" && (toStatus == "completed" || toStatus == "cancelled"))

/-! ### Photo approvals (src/pages/supervisor/PhotoApprovals.tsx and the
supabase migration creating photo_approvals) -/

/-- A photo_approvals row as the supervisor page sees it. -/
structure PhotoApprovalRow where
  id : String
  job_update_id : String
  photo_url : String
  status : String
  comments : Option String
  reviewed_by : Option String
  reviewed_at : Option String
deriving DecidableEq

/-- A notifications row as inserted by the approval handlers. -/
structure NotificationRow where
  user_id : String
  title : String
  message : String
  type : String
deriving DecidableEq

/-- handleReject from PhotoApprovals.tsx.  The comment argument is the entry
of the comments record for this photo id: none models a missing entry, and a
missing entry or the empty string is falsy in the source guard, which then
shows a toast and returns before any read or write.  Otherwise the handler
needs a signed-in user, stamps status rejected, reviewer and timestamp, and
inserts a retake notification carrying the comment text. -/
def handleReject (comment : Option String) (user : Option String)
    (rec : PhotoApprovalRow) (now customer_name staff_user_id : String) :
    Option (PhotoApprovalRow × NotificationRow) :=
  match comment with
  | none => none
  | some c =>
    if c = "" then none
    else
      match user with
      | none => none
      | some uid =>
        let rec2 : PhotoApprovalRow :=
          { rec with
            status := "rejected"
            reviewed_by := some uid
            reviewed_at := some now
            comments := some c }
        let notif : NotificationRow :=
          { user_id := staff_user_id
            title := "Photo Needs Retake"
            message := "Photo for " ++ customer_name ++ " needs to be retaken: " ++ c
            type := "warning" }
        some (rec2, notif)

/-- A photo_approvals row as the fan-out trigger creates it: the unique key
(job_update_id, photo_url) plus the status, which defaults to pending. -/
structure PhotoApprovalRecord where
  job_update_id : String
  photo_url : String
  status : String
deriving DecidableEq

/-- Key equality test for the UNIQUE (job_update_id, photo_url) constraint. -/
def sameKey (r : PhotoApprovalRecord) (updateId url : String) : Bool :=
  r.job_update_id == updateId && r.photo_url == url

/-- One row insert under ON CONFLICT (job_update_id, photo_url) DO NOTHING:
when a row with the key already exists, including one inserted earlier in
the same statement, the row is skipped without an error. -/
def insertPhotoApproval (db : List PhotoApprovalRecord) (updateId url : String) :
    List PhotoApprovalRecord :=
  if db.any (fun r => sameKey r updateId url) then db
  else db ++ [{ job_update_id := updateId, photo_url := url, status := "pending" }]

/-- The create_photo_approvals trigger body: INSERT INTO photo_approvals
(job_update_id, photo_url) SELECT NEW.id, unnest(NEW.photo_urls) ON CONFLICT
(job_update_id, photo_url) DO NOTHING, run over the unnested url list. -/
def create_photo_approvals (db : List PhotoApprovalRecord) (updateId : String)
    (photo_urls : List String) : List PhotoApprovalRecord :=
  photo_urls.foldl (fun acc url => insertPhotoApproval acc updateId url) db

/-- Number of rows carrying a given key. -/
def countKey (db : List PhotoApprovalRecord) (updateId url : String) : Nat :=
  (db.filter (fun r => sameKey r updateId url)).length

/-- The UNIQUE (job_update_id, photo_url) constraint: no key occurs twice. -/
def uniqueKeys (db : List PhotoApprovalRecord) : Prop :=
  ∀ updateId url, countKey db updateId url ≤ 1

/-! ### Supporting lemmas -/

theorem countKey_pos_iff_any (db : List PhotoApprovalRecord) (u url : String) :
    (db.any fun r => sameKey r u url) = true ↔ 0 < countKey db u url := by
  induction db with
  | nil => simp [countKey]
  | cons r rest ih =>
    simp only [countKey, List.any_cons, List.filter_cons] at ih ⊢
    by_cases h : sameKey r u url = true
    · simp [h]
    · simp [h, ih]

theorem countKey_append (db1 db2 : List PhotoApprovalRecord) (u url : String) :
    countKey (db1 ++ db2) u url = countKey db1 u url + countKey db2 u url := by
  simp [countKey, List.filter_append]

theorem insert_present (db : List PhotoApprovalRecord) (u url : String)
    (h : 0 < countKey db u url) : insertPhotoApproval db u url = db := by
  rw [insertPhotoApproval, if_pos ((countKey_pos_iff_any db u url).2 h)]

theorem insert_absent (db : List PhotoApprovalRecord) (u url : String)
    (h : countKey db u url = 0) :
    countKey (insertPhotoApproval db u url) u url = 1 := by
  rw [insertPhotoApproval, if_neg, countKey_append, h]
  · simp [countKey, sameKey]
  · intro hc
    have := (countKey_pos_iff_any db u url).1 hc
    omega

theorem countKey_insert_other (db : List PhotoApprovalRecord) (u url u2 url2 : String)
    (h : ¬(u2 = u ∧ url2 = url)) :
    countKey (insertPhotoApproval db u url) u2 url2 = countKey db u2 url2 := by
  rw [insertPhotoApproval]
  split
  · rfl
  · rw [countKey_append]
    have hfalse :
        sameKey { job_update_id := u, photo_url := url, status := "pending" } u2 url2 = false := by
      unfold sameKey
      by_cases h1 : u = u2
      · by_cases h2 : url = url2
        · exact absurd ⟨h1.symm, h2.symm⟩ h
        · simp [h2]
      · simp [h1]
    have hz : countKey [{ job_update_id := u, photo_url := url, status := "pending" }] u2 url2 = 0 := by
      simp [countKey, List.filter_cons, hfalse]
    omega

theorem insert_inv (db : List PhotoApprovalRecord) (u url : String)
    (h : uniqueKeys db) : uniqueKeys (insertPhotoApproval db u url) := by
  intro u2 url2
  by_cases hk : u2 = u ∧ url2 = url
  · obtain ⟨h1, h2⟩ := hk
    subst h1
    subst h2
    rcases Nat.eq_zero_or_pos (countKey db u2 url2) with h0 | hpos
    · rw [insert_absent db u2 url2 h0]
    · rw [insert_present db u2 url2 hpos]
      exact h u2 url2
  · rw [countKey_insert_other db u url u2 url2 hk]
    exact h u2 url2

theorem create_inv (urls : List String) :
    ∀ db u, uniqueKeys db → uniqueKeys (create_photo_approvals db u urls) := by
  induction urls with
  | nil => intro db u h; exact h
  | cons hd tl ih =>
    intro db u h
    exact ih (insertPhotoApproval db u hd) u (insert_inv db u hd h)

theorem create_preserves_one (urls : List String) :
    ∀ db u url, uniqueKeys db → countKey db u url = 1 →
      countKey (create_photo_approvals db u urls) u url = 1 := by
  induction urls with
  | nil => intro db u url _ h1; exact h1
  | cons hd tl ih =>
    intro db u url hu h1
    show countKey (create_photo_approvals (insertPhotoApproval db u hd) u tl) u url = 1
    by_cases hk : url = hd
    · subst hk
      rw [insert_present db u url (by omega)]
      exact ih db u url hu h1
    · have hother : countKey (insertPhotoApproval db u hd) u url = countKey db u url :=
        countKey_insert_other db u hd u url (fun hc => hk hc.2)
      exact ih (insertPhotoApproval db u hd) u url (insert_inv db u hd hu) (hother.trans h1)

theorem create_counts (urls : List String) :
    ∀ db u, uniqueKeys db →
      ∀ url ∈ urls, countKey (create_photo_approvals db u urls) u url = 1 := by
  induction urls with
  | nil => intro db u _ url h; cases h
  | cons hd tl ih =>
    intro db u hu url hmem
    show countKey (create_photo_approvals (insertPhotoApproval db u hd) u tl) u url = 1
    rcases List.mem_cons.1 hmem with rfl | hmem2
    · have h1 : countKey (insertPhotoApproval db u url) u url = 1 := by
        rcases Nat.eq_zero_or_pos (countKey db u url) with h0 | hpos
        · exact insert_absent db u url h0
        · rw [insert_present db u url hpos]
          have := hu u url
          omega
      exact create_preserves_one tl (insertPhotoApproval db u url) u url
        (insert_inv db u url hu) h1
    · exact ih (insertPhotoApproval db u hd) u (insert_inv db u hd hu) url hmem2

theorem create_noop (urls : List String) :
    ∀ db u, (∀ url ∈ urls, 0 < countKey db u url) →
      create_photo_approvals db u urls = db := by
  induction urls with
  | nil => intro db u _; rfl
  | cons hd tl ih =>
    intro db u h
    show create_photo_approvals (insertPhotoApproval db u hd) u tl = db
    rw [insert_present db u hd (h hd (List.mem_cons_self hd tl))]
    exact ih db u (fun url hu => h url (List.mem_cons_of_mem _ hu))

/-- Any jobs-row write of updateStatus that carries completion metadata
carries the signature url of the snapshot, which the signature guard has
already checked to be non-null: a completed write never has a null
signature reference. -/
theorem updateStatus_completed_write_has_signature (s : TaskDetailState)
    (user : Option String) (now : String) (w : JobUpdateData) (m : CompletedMeta)
    (hw : (updateStatus s user now "completed").2 = some w)
    (hm : w.completedMeta = some m) : m.signature_url ≠ none := by
  unfold updateStatus updateStatusCore at hw
  rcases hj : s.job with _ | j
  · rw [hj] at hw
    cases hw
  · rw [hj] at hw
    by_cases hsig : s.signatureUrl = none
    · rw [if_pos ⟨rfl, hsig⟩] at hw
      cases hw
    · rw [if_neg (fun hc => hsig hc.2)] at hw
      cases hw
      rw [if_pos rfl] at hm
      cases hm
      exact hsig

/-! ### Claim theorems -/

/-- Claim C3: for every checklist, the derived completion percentage equals
round of 100 times the number of completed items divided by the total number
of items when the list is non-empty, and 0 when it is empty; the computation
is total for every input list, never divides by zero, and always lands in
the range 0 to 100. -/
theorem workCompletion_spec (items : List ChecklistItem) :
    (items.length = 0 → workCompletion items = 0) ∧
    (0 < items.length →
      workCompletion items =
        round ((100 * (completedCount items : ℚ)) / (items.length : ℚ))) ∧
    0 ≤ workCompletion items ∧ workCompletion items ≤ 100 := by
  have hc : completedCount items ≤ items.length := List.length_filter_le _ _
  refine ⟨fun h0 => by simp [workCompletion, h0], fun hpos => ?_, ?_, ?_⟩
  · rw [workCompletion]
    simp only [hpos, if_true]
    congr 1
    ring
  · rw [workCompletion]
    by_cases hpos : 0 < items.length
    · simp only [hpos, if_true]
      rw [round_eq]
      refine Int.le_floor.2 ?_
      push_cast
      have h1 : (0 : ℚ) ≤ (completedCount items : ℚ) / (items.length : ℚ) := by positivity
      linarith
    · simp [hpos]
  · rw [workCompletion]
    by_cases hpos : 0 < items.length
    · simp only [hpos, if_true]
      have htq : (0 : ℚ) < (items.length : ℚ) := by exact_mod_cast hpos
      have hle : (completedCount items : ℚ) / (items.length : ℚ) ≤ 1 := by
        rw [div_le_one htq]
        exact_mod_cast hc
      rw [round_eq]
      have hlt : ⌊(completedCount items : ℚ) / (items.length : ℚ) * 100 + 1 / 2⌋ < 101 := by
        refine Int.floor_lt.2 ?_
        push_cast
        nlinarith
      omega
    · simp [hpos]

/-- Witness for C3 at a concrete three-item checklist with one completed
item. -/
theorem workCompletion_spec_witness :
    0 < ([{ item := "check oil", completed := true, quantity := none },
          { item := "torque bolts", completed := false, quantity := none },
          { item := "clean site", completed := false, quantity := none }] :
            List ChecklistItem).length ∧
    workCompletion [{ item := "check oil", completed := true, quantity := none },
          { item := "torque bolts", completed := false, quantity := none },
          { item := "clean site", completed := false, quantity := none }] =
      round ((100 * (completedCount
          [{ item := "check oil", completed := true, quantity := none },
           { item := "torque bolts", completed := false, quantity := none },
           { item := "clean site", completed := false, quantity := none }] : ℚ)) / 3) :=
  ⟨by decide, (workCompletion_spec _).2.1 (by decide)⟩

/-- The C3 example of the spec: three items, one completed, gives 33
percent, and the empty checklist gives 0. -/
theorem workCompletion_example :
    workCompletion [{ item := "check oil", completed := true, quantity := none },
          { item := "torque bolts", completed := false, quantity := none },
          { item := "clean site", completed := false, quantity := none }] = 33 ∧
    workCompletion [] = 0 := by
  constructor
  · norm_num [workCompletion, completedCount, round_eq]
  · norm_num [workCompletion]

/-- Claim C4: awarding amount XP below the level threshold leaves the level
unchanged and adds the amount to xp; awarding at or above the threshold
increments the level by exactly one, regardless of the amount, and sets xp
to the overflow past the old threshold. -/
theorem addXP_spec (d : GamificationData) (amount : Nat) :
    (d.xp + amount < d.level * 100 →
      (addXP d amount).1.level = d.level ∧ (addXP d amount).1.xp = d.xp + amount) ∧
    (d.level * 100 ≤ d.xp + amount →
      (addXP d amount).1.level = d.level + 1 ∧
      (addXP d amount).1.xp = d.xp + amount - d.level * 100) := by
  constructor <;> intro h
  · simp only [addXP]
    rw [if_neg (by omega)]
    exact ⟨rfl, rfl⟩
  · simp only [addXP]
    rw [if_pos (by omega)]
    exact ⟨rfl, rfl⟩

/-- Witness for C4 at the example of the spec: level 1, xp 90, award 30
gives level 2 and xp 20. -/
theorem addXP_spec_witness :
    (1 * 100 ≤ 90 + 30) ∧
    (addXP ⟨90, 1, 0, none, []⟩ 30).1.level = 1 + 1 ∧
    (addXP ⟨90, 1, 0, none, []⟩ 30).1.xp = 90 + 30 - 1 * 100 :=
  ⟨by norm_num, (addXP_spec ⟨90, 1, 0, none, []⟩ 30).2 (by norm_num)⟩

/-- Claim C5 (code bug): at the state where the streak increment first
reaches 5 with the last clock-in yesterday, the source saves the
incremented streak and then calls addAchievement, whose save is computed
from the stale render snapshot and persists last: the stored streak stays
at 4 and lastClockIn stays at yesterday, while the achievement is added.
The claimed behaviour, streak 5 and lastClockIn today, does not hold. -/
theorem updateStreak_threshold_clobbers_streak :
    updateStreak
      { xp := 0, level := 1, streak := 4,
        lastClockIn := some "Mon Jan 01 2024", achievements := [] }
      "Tue Jan 02 2024" "Mon Jan 01 2024" =
      { xp := 0, level := 1, streak := 4,
        lastClockIn := some "Mon Jan 01 2024", achievements := ["perfect_week"] } := by
  decide

/-- Claim C8: unlocking an achievement that is already unlocked returns not
new and leaves the state unchanged, so no duplicate is ever produced, and
no gamification operation, addAchievement, addXP or updateStreak, ever
removes an unlocked achievement. -/
theorem addAchievement_monotone (d : GamificationData)
    (a b today yesterday : String) (amount : Nat) :
    (a ∈ d.achievements → addAchievement d a = (d, false)) ∧
    (d.achievements.Nodup → (addAchievement d a).1.achievements.Nodup) ∧
    (b ∈ d.achievements → b ∈ (addAchievement d a).1.achievements) ∧
    (b ∈ d.achievements → b ∈ (addXP d amount).1.achievements) ∧
    (b ∈ d.achievements → b ∈ (updateStreak d today yesterday).achievements) := by
  refine ⟨?_, ?_, ?_, ?_, ?_⟩
  · intro h
    rw [addAchievement, if_neg (by simp [h])]
  · intro h
    rw [addAchievement]
    split
    · rename_i hna
      simpa [List.nodup_append] using ⟨h, hna⟩
    · exact h
  · intro h
    rw [addAchievement]
    split
    · simp [h]
    · exact h
  · intro h
    simp only [addXP]
    split <;> exact h
  · intro h
    simp only [updateStreak]
    split
    · split
      · rw [addAchievement]
        split
        · simp [h]
        · exact h
      · exact h
    · split
      · exact h
      · exact h

/-- Witness for C8: unlocking task_master when it is already unlocked is a
no-op that reports not new. -/
theorem addAchievement_monotone_witness :
    "task_master" ∈ (⟨0, 1, 0, none, ["task_master"]⟩ : GamificationData).achievements ∧
    addAchievement ⟨0, 1, 0, none, ["task_master"]⟩ "task_master" =
      (⟨0, 1, 0, none, ["task_master"]⟩, false) :=
  ⟨by decide,
   (addAchievement_monotone ⟨0, 1, 0, none, ["task_master"]⟩
      "task_master" "task_master" "t" "y" 0).1 (by decide)⟩

/-- Claim C9 (code bug): on the fifth early completion, with task_master
already unlocked, xp 10 at level 1, completedJobs 9 and earlyCompletions 4,
the flow picks the early bonus of 50 XP and increments the early counter to
5, but the speed_demon achievement save is computed from the stale render
snapshot and persists last, so the stored xp stays at 10 while the toast
shown to the user announces plus 50 XP; the 50 XP award is lost.  In
addition, the completedJobs and earlyCompletions counters live under fixed
local-storage keys shared by every technician using the browser, not per
technician. -/
theorem completionRewards_fifth_early_loses_xp :
    completionRewards ⟨10, 1, 0, none, ["task_master"]⟩ 9 4 true =
      (⟨10, 1, 0, none, ["task_master", "speed_demon"]⟩, 10, 5, 50) := by
  decide

/-- Claim C1 (code bug): saving a signature while the snapshot signature
url is null does not complete the job.  handleSignatureSave schedules the
new signature url and then calls updateStatus with the string completed,
but updateStatus reads the render snapshot, in which signatureUrl is still
null, so it re-opens the signature pad and writes nothing: the promised
automatic completion after signature capture never happens in this run.
The safety half of the claim does hold, as the separate theorem
updateStatus_completed_write_has_signature shows. -/
theorem handleSignatureSave_reopens_pad :
    handleSignatureSave
      { job := some ⟨"job1", "in_progress", none⟩, notes := "",
        signatureUrl := none, showSignaturePad := true }
      (some "tech1") "2024-01-01T10:00:00Z" "sig.png" =
      ({ job := some ⟨"job1", "in_progress", none⟩, notes := "",
         signatureUrl := some "sig.png", showSignaturePad := true }, none) := by
  decide

/-- Claim C2, counterexample: with a cancelled job loaded, the Cancel Job
button still renders, so the request cancelled to cancelled, illegal under
the claimed state machine because cancelled is terminal, can be issued;
updateStatus performs it without any rejection, writing status and notes to
the jobs row, and no invalid-transition error exists anywhere in the flow,
whose result type has no error outcome at all. -/
theorem cancelled_cancel_request_not_rejected :
    "cancelled" ∈ availableActions "cancelled" ∧
    specLegalTransition "cancelled" "cancelled" = false ∧
    (updateStatus
      { job := some ⟨"job1", "cancelled", none⟩, notes := "touched",
        signatureUrl := none, showSignaturePad := false }
      (some "sup1") "t0" "cancelled").2 =
      some { status := "cancelled", notes := "touched", completedMeta := none } := by
  refine ⟨by decide, by decide, ?_⟩
  decide

/-- Claim C2, amended: illegal transitions are prevented only by which
buttons render.  Start renders only on pending, Complete only on
in_progress, and Cancel on every status other than completed, so no request
can be issued out of completed, but a cancel request on an already
cancelled job is possible.  updateStatus itself performs no legality check:
whenever a job is loaded and the request is not a completion with a null
snapshot signature, it writes, and it has no invalid-transition error
path. -/
theorem updateStatus_no_transition_guard :
    availableActions "pending" = ["in_progress", "cancelled"] ∧
    availableActions "in_progress" = ["completed", "cancelled"] ∧
    availableActions "completed" = [] ∧
    availableActions "cancelled" = ["cancelled"] ∧
    ∀ (s : TaskDetailState) (user : Option String) (now newStatus : String),
      s.job.isSome → ¬(newStatus = "completed" ∧ s.signatureUrl = none) →
      ((updateStatus s user now newStatus).2).isSome := by
  refine ⟨by decide, by decide, by decide, by decide, ?_⟩
  intro s user now newStatus hjob hguard
  unfold updateStatus updateStatusCore
  rcases hj : s.job with _ | j
  · rw [hj] at hjob
    cases hjob
  · simp [hguard]

/-- Witness for the amended C2 at a pending job started via the Start Job
button. -/
theorem updateStatus_no_transition_guard_witness :
    ({ job := some ⟨"job1", "pending", none⟩, notes := "", signatureUrl := none,
       showSignaturePad := false } : TaskDetailState).job.isSome ∧
    ¬("in_progress" = "completed" ∧
      ({ job := some ⟨"job1", "pending", none⟩, notes := "", signatureUrl := none,
         showSignaturePad := false } : TaskDetailState).signatureUrl = none) ∧
    ((updateStatus
      { job := some ⟨"job1", "pending", none⟩, notes := "", signatureUrl := none,
        showSignaturePad := false } none "t0" "in_progress").2).isSome :=
  ⟨by decide, by decide,
   updateStatus_no_transition_guard.2.2.2.2
     { job := some ⟨"job1", "pending", none⟩, notes := "", signatureUrl := none,
       showSignaturePad := false } none "t0" "in_progress" (by decide) (by decide)⟩

/-- Claim C6: rejecting a photo approval with a missing or empty comment
fails before any write, so the record keeps its pending status with no
reviewer stamp and no notification is inserted; a rejection that does go
through always carries a non-empty comment and a reviewer identity, stamps
reviewer and timestamp, and leaves the key fields of the row unchanged. -/
theorem handleReject_requires_comment (comment user : Option String)
    (rec : PhotoApprovalRow) (now customer_name staff_user_id : String) :
    ((comment = none ∨ comment = some "") →
      handleReject comment user rec now customer_name staff_user_id = none) ∧
    (∀ rec2 notif,
      handleReject comment user rec now customer_name staff_user_id =
          some (rec2, notif) →
      (∃ c, comment = some c ∧ c ≠ "") ∧
      (∃ uid, user = some uid ∧ rec2.reviewed_by = some uid) ∧
      rec2.status = "rejected" ∧ rec2.comments = comment ∧
      rec2.reviewed_at = some now ∧ rec2.id = rec.id ∧
      rec2.job_update_id = rec.job_update_id ∧ rec2.photo_url = rec.photo_url) := by
  constructor
  · rintro (rfl | rfl)
    · rfl
    · unfold handleReject
      simp
  · intro rec2 notif hw
    rcases comment with _ | c
    · cases hw
    · simp only [handleReject] at hw
      by_cases hc : c = ""
      · rw [if_pos hc] at hw
        cases hw
      · rw [if_neg hc] at hw
        rcases user with _ | uid
        · cases hw
        · simp only [Option.some.injEq, Prod.mk.injEq] at hw
          obtain ⟨hrec, -⟩ := hw
          subst hrec
          exact ⟨⟨c, rfl, hc⟩, ⟨uid, rfl, rfl⟩, rfl, rfl, rfl, rfl, rfl, rfl⟩

/-- Witness for C6: a reject with a missing comment entry is refused. -/
theorem handleReject_requires_comment_witness :
    ((none : Option String) = none ∨ (none : Option String) = some "") ∧
    handleReject none (some "sup1") ⟨"p1", "u1", "url1", "pending", none, none, none⟩
      "t0" "Acme" "staff1" = none :=
  ⟨Or.inl rfl,
   (handleReject_requires_comment none (some "sup1")
      ⟨"p1", "u1", "url1", "pending", none, none, none⟩
      "t0" "Acme" "staff1").1 (Or.inl rfl)⟩

/-- Claim C7: starting from a photo_approvals table satisfying the unique
constraint on (job_update_id, photo_url), the fan-out trigger of a job
update creates exactly one pending record per distinct photo url of the
update, preserves the unique constraint, and running the very same insert
again, the duplicate submission, changes nothing: the conflicting inserts
are skipped, not errors. -/
theorem create_photo_approvals_spec (db : List PhotoApprovalRecord)
    (updateId : String) (urls : List String) (hu : uniqueKeys db) :
    uniqueKeys (create_photo_approvals db updateId urls) ∧
    (∀ url ∈ urls, countKey (create_photo_approvals db updateId urls) updateId url = 1) ∧
    create_photo_approvals (create_photo_approvals db updateId urls) updateId urls =
      create_photo_approvals db updateId urls := by
  refine ⟨create_inv urls db updateId hu, create_counts urls db updateId hu, ?_⟩
  apply create_noop
  intro url hmem
  have := create_counts urls db updateId hu url hmem
  omega

/-- Witness for C7: fanning out a job update with a repeated url over the
empty table yields one record per distinct url. -/
theorem create_photo_approvals_spec_witness :
    uniqueKeys ([] : List PhotoApprovalRecord) ∧
    countKey (create_photo_approvals [] "u1" ["a", "b", "a"]) "u1" "a" = 1 := by
  have h0 : uniqueKeys ([] : List PhotoApprovalRecord) := by
    intro u url
    simp [countKey]
  exact ⟨h0, (create_photo_approvals_spec [] "u1" ["a", "b", "a"] h0).2.1 "a" (by decide)⟩

/-- Claim C10: toggling entry index of a checklist preserves the length,
negates exactly the completed flag of the entry at that index while keeping
its label and quantity, and leaves every other position, and hence the
order, unchanged. -/
theorem handleToggle_frame (l : List ChecklistItem) (i : Nat) :
    (handleToggle l i).length = l.length ∧
    ((handleToggle l i)[i]?).map ChecklistItem.item = (l[i]?).map ChecklistItem.item ∧
    ((handleToggle l i)[i]?).map ChecklistItem.quantity =
      (l[i]?).map ChecklistItem.quantity ∧
    ((handleToggle l i)[i]?).map ChecklistItem.completed =
      (l[i]?).map (fun it => !it.completed) ∧
    (∀ j, j ≠ i → (handleToggle l i)[j]? = l[j]?) := by
  have hget : ∀ j, (handleToggle l i)[j]? =
      Option.map (fun it =>
        if j = i then { it with completed := !it.completed } else it) l[j]? := by
    intro j
    exact List.getElem?_mapIdx
  refine ⟨by simp [handleToggle, List.length_mapIdx], ?_, ?_, ?_, ?_⟩
  · rw [hget i]
    cases l[i]? <;> simp
  · rw [hget i]
    cases l[i]? <;> simp
  · rw [hget i]
    cases l[i]? <;> simp
  · intro j hj
    rw [hget j]
    cases l[j]? <;> simp [hj]

/-- Witness for C10 on a two-entry checklist, toggling index 1 and checking
that index 0 is untouched. -/
theorem handleToggle_frame_witness :
    (0 : Nat) ≠ 1 ∧
    (handleToggle [⟨"wear gloves", false, none⟩, ⟨"fit valve", true, some 2⟩] 1)[0]? =
      ([⟨"wear gloves", false, none⟩, ⟨"fit valve", true, some 2⟩] :
        List ChecklistItem)[0]? :=
  ⟨by decide,
   (handleToggle_frame [⟨"wear gloves", false, none⟩, ⟨"fit valve", true, some 2⟩]
      1).2.2.2.2 0 (by decide)⟩

end FieldFlow
